import Mathlib

/-!
Verification development for the transcrypt client: room/session coordination
and the chunked transfer protocol. The definitions below are shallow embeddings
of the JavaScript client modules (`websocket.js`, `p2p.js`, `encryption.js`):
pure functions are translated directly, stateful handlers become explicit state
passing over record types, the WebCrypto / server-side AEAD primitives are
abstract function parameters, and JS timers become an explicit event semantics.
-/

namespace Transcrypt

/-- Bytes are modelled as naturals (each intended in 0..255); a byte buffer is a list. -/
abbrev Bytes := List Nat

/-! ## Small JS-semantics helpers -/

/-- Helper for `strIncludes`: does `needle` occur at the very start of the list? -/
def startsWithList : List Char → List Char → Bool
  | _, [] => true
  | [], _ :: _ => false
  | h :: hs, n :: ns => h == n && startsWithList hs ns

/-- Helper for `strIncludes`: does `needle` occur at some position of the list? -/
def listIncludes (needle : List Char) : List Char → Bool
  | [] => startsWithList [] needle
  | h :: t => startsWithList (h :: t) needle || listIncludes needle t

/-- JavaScript `hay.includes(sub)`: contiguous-substring test. -/
def strIncludes (hay sub : String) : Bool := listIncludes sub.toList hay.toList

/-- JavaScript `Math.round((n / den) * f)` in exact integer arithmetic:
round-half-up of `f * n / den` (the client only evaluates it at points where the
double-precision computation is exact enough to agree with the exact value). -/
def jsRoundPct (f n den : Nat) : Nat := (2 * (f * n) + den) / (2 * den)

/-- JavaScript `arr.slice(k * cs, min((k + 1) * cs, arr.length))`: the `k`-th
`cs`-sized chunk of a byte buffer (`take` clamps exactly like `slice`). -/
def fileSlice (file : Bytes) (cs k : Nat) : Bytes := (file.drop (k * cs)).take cs

/-! ## encryption.js — hexToUint8Array -/

/-- Value of one hexadecimal digit as `parseInt(·, 16)` sees it (0-9, a-f, A-F). -/
def hexDigitVal (c : Char) : Option Nat :=
  if '0' ≤ c ∧ c ≤ '9' then some (c.toNat - '0'.toNat)
  else if 'a' ≤ c ∧ c ≤ 'f' then some (c.toNat - 'a'.toNat + 10)
  else if 'A' ≤ c ∧ c ≤ 'F' then some (c.toNat - 'A'.toNat + 10)
  else none

/-- Is `c` a hexadecimal digit? -/
def isHexDigit (c : Char) : Bool := (hexDigitVal c).isSome

/-- JavaScript `parseInt(two-character-chunk, 16)` followed by the `Uint8Array`
store coercion: a full hex pair gives `16*d1 + d2`, a valid first digit followed
by a non-digit gives the one-digit prefix value (parseInt parses the longest
valid prefix), no valid first digit gives `NaN`, which the typed-array store
turns into `0`. -/
def parseHexPair (c1 : Char) (c2? : Option Char) : Nat :=
  match hexDigitVal c1 with
  | none => 0
  | some d1 =>
    match c2? with
    | none => d1
    | some c2 =>
      match hexDigitVal c2 with
      | some d2 => 16 * d1 + d2
      | none => d1

/-- The body of the `for (let i = 0; i < hexString.length; i += 2)` loop of
`hexToUint8Array`: one output byte per two input characters. -/
def hexPairBytes : List Char → List Nat
  | c1 :: c2 :: rest => parseHexPair c1 (some c2) :: hexPairBytes rest
  | [c] => [parseHexPair c none]
  | [] => []

/-- Model of `hexToUint8Array(hexString)` from encryption.js. `none` input models a
`null`/`undefined` argument; the guard `if (!hexString)` also catches the empty
string. For an odd-length string `new Uint8Array(hexString.length / 2)` receives
a fractional length and throws, modelled as `none` output. -/
def hexToUint8Array (hexString : Option String) : Option (List Nat) :=
  match hexString with
  | none => some []
  | some s =>
    if s.length = 0 then some []
    else if s.length % 2 = 1 then none
    else some (hexPairBytes s.toList)

/-- Shorthand: the hex-digit value of character `j` of `s` (0 when out of range
or not a digit); used to state the element-wise property of `hexToUint8Array`. -/
def hexValAt (s : String) (j : Nat) : Nat := ((s.toList[j]?).bind hexDigitVal).getD 0

/-! ## encryption.js — decryptFileWithAES -/

/-- Abstract WebCrypto `crypto.subtle.decrypt({name: "AES-GCM", iv, tagLength: 128}, key, input)`:
given key, IV and an input whose final 16 bytes are interpreted as the
authentication tag, returns the plaintext, or `none` when the promise rejects
(tag mismatch or malformed input). The primitive itself is an external
collaborator and is therefore a parameter, not reimplemented. -/
abbrev GcmDecrypt := Bytes → Bytes → Bytes → Option Bytes

/-- Abstract server-side ChaCha20-Poly1305 decryption endpoint (`decryptChaCha`):
file bytes, key hex, nonce hex; `none` models a rejected fetch. -/
abbrev ChachaApi := Bytes → String → String → Option Bytes

/-- Model of `decryptFileWithAES(encryptedData, aesKey, iv, tag)` from encryption.js:
first attempt decrypts `encryptedData ++ tag` (concatenated-tag layout); if that
attempt fails, the fallback decrypts `encryptedData` alone (separate-tag layout,
the tag then being whatever trailing 16 bytes the data carries). A failure of
both attempts propagates as a thrown error, modelled as `none`. -/
def decryptFileWithAES (gcm : GcmDecrypt) (encryptedData aesKey iv tag : Bytes) :
    Option Bytes :=
  match gcm aesKey iv (encryptedData ++ tag) with
  | some decrypted => some decrypted
  | none => gcm aesKey iv encryptedData

/-! ## websocket.js — client state and message model -/

/-- The `encryptionOptions` object read off the send form. -/
structure EncryptionOptions where
  method : String
  integrityCheck : Bool
deriving Repr, DecidableEq

/-- The `encryption_metadata` object delivered inside `transfer_progress`
messages; every field the client may read is an optional hex string. -/
structure EncMeta where
  method : String
  aes_key : Option String
  iv : Option String
  tag : Option String
  chacha_key : Option String
  nonce : Option String
  file_hash : Option String
deriving Repr, DecidableEq

/-- JS truthiness for an optional string field: `undefined`, `null` and the
empty string are falsy. -/
def truthyStr : Option String → Option String
  | some s => if s = "" then none else some s
  | none => none

/-- Client-side mutable state of websocket.js: the module-level variables
(`wsConnection` open state, `transferInProgress`), the state.js slots
(`currentRole`, `receivedFileBlob`, `encryptionMetadata`, `receivedFileName`),
and the DOM surface the handlers write to (progress bar, download button,
integrity banner, room counts, notifications, log, error display, and the
join-screen redirect performed on capacity errors). -/
structure ClientState where
  wsOpen : Bool
  currentRole : String
  transferInProgress : Bool
  receivedFileBlob : Option Bytes
  encryptionMetadata : Option EncMeta
  receivedFileName : Option String
  downloadBtnVisible : Bool
  progressPercent : Nat
  integrityResultShown : Option Bool
  senderCount : Nat
  receiverCount : Nat
  redirectedToJoin : Bool
  errorDisplayed : Option String
  notifications : List (String × String)
  log : List (String × String)
deriving Repr, DecidableEq

/-- Server→client JSON messages dispatched by `handleWebSocketMessage`;
`unknown` stands for any JSON whose `type` reaches the `default` branch
(for example the sender-direction `chunk_id`/`total_chunks` frames, which have
no `type` at all). -/
inductive ServerMsg where
  | roomStatus (senders receivers : Nat)
  | connected
  | transferStart (filename : String) (filesize : Nat) (options : Option EncryptionOptions)
  | transferProgress (percentage : Nat) (encryption_metadata : Option EncMeta)
  | transferComplete (filename : String) (integrity_verified : Option Bool)
  | errorMsg (message : String)
  | p2pSignal
  | unknown
deriving Repr, DecidableEq

/-- A frame arriving on the relay WebSocket: JSON text or binary data. -/
inductive WSIncoming where
  | text (m : ServerMsg)
  | binary (data : Bytes)
deriving Repr, DecidableEq

/-- Client→server messages emitted by the WebSocket branch of `sendFile`. -/
inductive RelayMsg where
  | startTransfer (filename : String) (filesize : Nat) (encryptionOptions : EncryptionOptions)
  | binaryChunk (data : Bytes)
  | chunkMeta (chunk_id : Nat) (total_chunks : Nat)
deriving Repr, DecidableEq

/-! ## encryption.js — processEncryptedFile -/

/-- The method actually used by `processEncryptedFile`:
`encryptionMetadata.method || 'aes-256-gcm'` (a falsy method defaults). -/
def effectiveMethod (meta : EncMeta) : String :=
  if meta.method = "" then "aes-256-gcm" else meta.method

/-- Model of `processEncryptedFile()` from encryption.js, parametrised by the abstract
AEAD primitives. Reads `receivedFileBlob` and `encryptionMetadata`; on any
decryption path — success, missing parameters, or a thrown/caught error — the
download button is shown; only the initial missing-data guard returns without
showing it. A successful decryption replaces the blob with the plaintext;
a failed one leaves the received bytes in place. -/
def processEncryptedFile (gcm : GcmDecrypt) (chacha : ChachaApi) (s : ClientState) :
    ClientState :=
  match s.receivedFileBlob, s.encryptionMetadata with
  | some fileData, some meta =>
    if effectiveMethod meta = "aes-256-gcm" then
      match truthyStr meta.aes_key, truthyStr meta.iv, truthyStr meta.tag with
      | some keyHex, some ivHex, some tagHex =>
        match hexToUint8Array (some keyHex), hexToUint8Array (some ivHex),
            hexToUint8Array (some tagHex) with
        | some aesKey, some iv, some tag =>
          match decryptFileWithAES gcm fileData aesKey iv tag with
          | some decrypted =>
            { s with receivedFileBlob := some decrypted,
                     downloadBtnVisible := true,
                     log := ("AES decryption completed successfully", "success") :: s.log }
          | none =>
            { s with downloadBtnVisible := true,
                     log := ("Error with decryption", "error") :: s.log }
        | _, _, _ =>
          { s with downloadBtnVisible := true,
                   log := ("Error with decryption", "error") :: s.log }
      | _, _, _ =>
        { s with downloadBtnVisible := true,
                 log := ("Missing AES parameters. Required: aes_key, iv, and tag", "error") :: s.log }
    else if effectiveMethod meta = "chacha20-poly1305" then
      match truthyStr meta.chacha_key, truthyStr meta.nonce with
      | some keyHex, some nonceHex =>
        match chacha fileData keyHex nonceHex with
        | some decryptedBlob =>
          { s with receivedFileBlob := some decryptedBlob,
                   downloadBtnVisible := true,
                   log := ("Server-side ChaCha20 decryption completed", "success") :: s.log }
        | none =>
          { s with downloadBtnVisible := true,
                   log := ("Error with decryption", "error") :: s.log }
      | _, _ =>
        { s with downloadBtnVisible := true,
                 log := ("Missing ChaCha20-Poly1305 parameters. Required: chacha_key and nonce", "error") :: s.log }
    else
      { s with downloadBtnVisible := true,
               log := ("Decryption processing finished", "success") :: s.log }
  | _, _ => { s with log := ("File could not be processed: Missing data", "error") :: s.log }

/-! ## websocket.js — server-message handlers -/

/-- Model of `updateRoomStatus(data)`: update the displayed sender/receiver counts. -/
def updateRoomStatus (s : ClientState) (senders receivers : Nat) : ClientState :=
  { s with senderCount := senders, receiverCount := receivers }

/-- Model of `handleTransferStart(data)`: reset the progress bar; on the receiver side
also reset the per-transfer state (`receivedFileBlob`, `encryptionMetadata`)
and remember the announced filename. -/
def handleTransferStart (s : ClientState) (filename : String) (_filesize : Nat)
    (_options : Option EncryptionOptions) : ClientState :=
  if s.currentRole = "receiver" then
    { s with progressPercent := 0,
             receivedFileBlob := none,
             encryptionMetadata := none,
             receivedFileName := some filename }
  else { s with progressPercent := 0 }

/-- Model of `updateTransferProgress(data)`: show the server-reported percentage; on the
receiver side store any delivered `encryption_metadata` for later decryption. -/
def updateTransferProgress (s : ClientState) (percentage : Nat)
    (encryption_metadata : Option EncMeta) : ClientState :=
  if s.currentRole = "receiver" then
    match encryption_metadata with
    | some m => { s with progressPercent := percentage, encryptionMetadata := some m }
    | none => { s with progressPercent := percentage }
  else { s with progressPercent := percentage }

/-- The decryption dispatch inside the receiver branch of
`handleTransferComplete`: decrypt when the announced method comes with its key
material, warn (but stay downloadable) when keys are missing, and just show the
download button when the file is not encrypted. -/
def decryptStage (gcm : GcmDecrypt) (chacha : ChachaApi) (s : ClientState) : ClientState :=
  match s.encryptionMetadata with
  | some meta =>
    if meta.method ≠ "" then
      if meta.method = "aes-256-gcm" ∧ (truthyStr meta.aes_key).isSome then
        processEncryptedFile gcm chacha s
      else if meta.method = "chacha20-poly1305" ∧ (truthyStr meta.chacha_key).isSome then
        processEncryptedFile gcm chacha s
      else
        { s with downloadBtnVisible := true,
                 log := ("Encryption method specified but decryption keys missing", "warning") :: s.log }
    else { s with downloadBtnVisible := true }
  | none => { s with downloadBtnVisible := true }

/-- The integrity-banner tail of `handleTransferComplete`: display the verdict
when the message carries one. -/
def applyIntegrity (integrity_verified : Option Bool) (s : ClientState) : ClientState :=
  match integrity_verified with
  | some verified =>
    { s with integrityResultShown := some verified,
             log := (if verified then ("Integrity validated", "success")
                     else ("Integrity validation failed!", "error")) :: s.log }
  | none => s

/-- Model of `handleTransferComplete(data)`: clear `transferInProgress`; on the receiver
side record the filename, run the decryption dispatch, then display the
integrity verdict. -/
def handleTransferComplete (gcm : GcmDecrypt) (chacha : ChachaApi) (s : ClientState)
    (filename : String) (integrity_verified : Option Bool) : ClientState :=
  if s.currentRole = "receiver" then
    applyIntegrity integrity_verified
      (decryptStage gcm chacha
        { s with transferInProgress := false, receivedFileName := some filename })
  else { s with transferInProgress := false }

/-- Model of `handleErrorMessage(data)`: clear `transferInProgress`, log and display the
message; when the message contains "maximum capacity" close the socket and, in
receiver mode, go back to the join screen. -/
def handleErrorMessage (s : ClientState) (message : String) : ClientState :=
  if strIncludes message "maximum capacity" then
    if s.currentRole = "receiver" then
      { s with transferInProgress := false,
               errorDisplayed := some message,
               log := ("Error: " ++ message, "error") :: s.log,
               wsOpen := false,
               redirectedToJoin := true }
    else
      { s with transferInProgress := false,
               errorDisplayed := some message,
               log := ("Error: " ++ message, "error") :: s.log,
               wsOpen := false }
  else
    { s with transferInProgress := false,
             errorDisplayed := some message,
             log := ("Error: " ++ message, "error") :: s.log }

/-- Model of `wsConnection.onclose(event)`: a 1000 close is logged as normal; an abnormal
close is logged as an error and, when the reason contains
"Maximum number of receivers", additionally shows a capacity notification.
No branch touches the join-screen redirect. -/
structure CloseEvent where
  code : Nat
  reason : String
deriving Repr, DecidableEq

/-- The body of the `onclose` handler installed by `connectWebSocket`. -/
def handleClose (s : ClientState) (e : CloseEvent) : ClientState :=
  if e.code = 1000 then
    { s with log := ("Connection to server lost", "info") :: s.log }
  else if strIncludes e.reason "Maximum number of receivers" then
    { s with log := ("Connection closed with code " ++ toString e.code, "error") :: s.log,
             notifications := ("Room has reached maximum capacity", "danger") :: s.notifications }
  else
    { s with log := ("Connection closed with code " ++ toString e.code, "error") :: s.log }

/-- Model of `handleWebSocketMessage(event)`: dispatch on the parsed `type`; binary data
in receiver mode replaces `receivedFileBlob` wholesale (the relay delivers a
complete file at once, not chunks — the handler keeps no chunk buffer). -/
def handleWebSocketMessage (gcm : GcmDecrypt) (chacha : ChachaApi) (s : ClientState)
    (msg : WSIncoming) : ClientState :=
  match msg with
  | .text m =>
    match m with
    | .roomStatus senders receivers => updateRoomStatus s senders receivers
    | .connected => s
    | .transferStart filename filesize options => handleTransferStart s filename filesize options
    | .transferProgress percentage meta => updateTransferProgress s percentage meta
    | .transferComplete filename verified => handleTransferComplete gcm chacha s filename verified
    | .errorMsg message => handleErrorMessage s message
    | .p2pSignal => s
    | .unknown => s
  | .binary data =>
    if s.currentRole = "receiver" then
      { s with receivedFileBlob := some data,
               log := ("File received, processing...", "info") :: s.log }
    else s

/-! ## websocket.js — the WebSocket branch of sendFile -/

/-- Relay chunk size: `const chunkSize = 64 * 1024`. -/
def relayChunkSize : Nat := 64 * 1024

/-- The `reader.onload` / `readNextChunk` loop of the WebSocket branch of
`sendFile`, which is a do-while: the first read is issued unconditionally
(`readNextChunk(0, chunkSize)`), each `onload` sends the binary chunk then its
`chunk_id`/`total_chunks` frame, and reading continues while
`chunkId < totalChunks`. The fuel argument counts the remaining continuations,
`totalChunks - chunkId - 1` at every call. -/
def relayPairs (file : Bytes) (total : Nat) : Nat → Nat → List RelayMsg
  | k, 0 => [RelayMsg.binaryChunk (fileSlice file relayChunkSize k), RelayMsg.chunkMeta k total]
  | k, fuel + 1 =>
    RelayMsg.binaryChunk (fileSlice file relayChunkSize k) :: RelayMsg.chunkMeta k total ::
      relayPairs file total (k + 1) fuel

/-- The WebSocket branch of `sendFile()`: reject when no file is selected, when
the socket is not open, or when `transferInProgress` is already set (each
rejection only shows a notification); otherwise set the flag, send the
`start_transfer` metadata and stream the chunk pairs. Returns the updated
client state and the ordered list of frames put on the wire. -/
def sendFileRelay (s : ClientState) (selectedFile : Option (String × Bytes))
    (encryptionOptions : EncryptionOptions) : ClientState × List RelayMsg :=
  match selectedFile with
  | none => ({ s with notifications := ("No file selected", "danger") :: s.notifications }, [])
  | some (name, data) =>
    if s.wsOpen = false then
      ({ s with notifications := ("WebSocket connection not established", "danger") :: s.notifications }, [])
    else if s.transferInProgress then
      ({ s with notifications := ("Transfer already in progress", "warning") :: s.notifications }, [])
    else
      ({ s with transferInProgress := true },
       RelayMsg.startTransfer name data.length encryptionOptions ::
         relayPairs data ((data.length + relayChunkSize - 1) / relayChunkSize) 0
           ((data.length + relayChunkSize - 1) / relayChunkSize - 1))

/-! ## websocket.js — the P2P message handler (window.handleP2PMessage) -/

/-- P2P chunk size: `const chunkSize = 16 * 1024`. -/
def p2pChunkSize : Nat := 16 * 1024

/-- The `pendingP2PFileMetadata` object: the stored `file_metadata` message plus
the fields the handler attaches (`chunkedTransfer`, `chunks`, `totalChunks`,
`nextChunkIndex`; the latter two start out `undefined`). -/
structure P2PFileMeta where
  name : String
  size : Nat
  encryptionOptions : Option EncryptionOptions
  chunkedTransfer : Bool
  chunks : List Bytes
  totalChunks : Option Nat
  nextChunkIndex : Option Nat
deriving Repr, DecidableEq

/-- Receiver-side state touched by `window.handleP2PMessage`: the pending
metadata, the state.js slots and the DOM surface. `progressBar = none` models
the `NaN%` the bar would show if a chunk arrived before `totalChunks` is known. -/
structure P2PRecvState where
  pending : Option P2PFileMeta
  receivedFileBlob : Option Bytes
  receivedFileName : Option String
  encryptionMetadata : Option String
  downloadBtnVisible : Bool
  progressBar : Option Nat
  errors : List String
deriving Repr, DecidableEq

/-- The receiver before any P2P message arrives. -/
def p2pInit : P2PRecvState :=
  { pending := none, receivedFileBlob := none, receivedFileName := none,
    encryptionMetadata := none, downloadBtnVisible := false, progressBar := none,
    errors := [] }

/-- Messages arriving on the data channel, as `window.handleP2PMessage`
distinguishes them: an `ArrayBuffer`, or parsed JSON of type `file_metadata`
or `file_chunk` (the legacy `file` type is not modelled — the sender in this
repository never emits it). -/
inductive P2PMsg where
  | binary (data : Bytes)
  | fileMetadata (name : String) (size : Nat) (encryptionOptions : Option EncryptionOptions)
  | fileChunk (chunk_index : Nat) (total_chunks : Nat)
deriving Repr, DecidableEq

/-- Model of `window.handleP2PMessage(data)` from websocket.js. A binary message in
chunked mode is pushed onto `chunks`, the progress bar is set to
`min(round(chunks.length / totalChunks * 95) + 5, 100)`, and when
`chunks.length === totalChunks` the chunks are concatenated in arrival order
into the received blob. A `file_metadata` message resets the pending record;
a `file_chunk` message records `totalChunks` (from the `chunk_index === 0`
message) and the expected next index. First, the progress-bar update performed
for each received chunk: `min(round(chunksReceived / totalChunks * 95) + 5, 100)`,
or the NaN display (`none`) when `totalChunks` is still unknown. -/
def p2pProgressDisplay (chunksReceived : Nat) (totalChunks : Option Nat) : Option Nat :=
  match totalChunks with
  | some total => some (min (jsRoundPct 95 chunksReceived total + 5) 100)
  | none => none

/-- The dispatch of `window.handleP2PMessage(data)` itself (see above). -/
def handleP2PMessage (s : P2PRecvState) (msg : P2PMsg) : P2PRecvState :=
  match msg with
  | .binary data =>
    match s.pending with
    | some meta =>
      if meta.chunkedTransfer then
        if some (meta.chunks ++ [data]).length = meta.totalChunks then
          { s with pending := none,
                   receivedFileBlob := some (meta.chunks ++ [data]).flatten,
                   receivedFileName := some meta.name,
                   encryptionMetadata :=
                     (match meta.encryptionOptions with
                      | some o => if o.method ≠ "none" then some o.method else s.encryptionMetadata
                      | none => s.encryptionMetadata),
                   downloadBtnVisible := true,
                   progressBar := some 100 }
        else
          { s with pending := some { meta with chunks := meta.chunks ++ [data] },
                   progressBar := p2pProgressDisplay (meta.chunks.length + 1) meta.totalChunks }
      else
        { s with pending := none,
                 receivedFileBlob := some data,
                 receivedFileName := some meta.name,
                 encryptionMetadata :=
                   (match meta.encryptionOptions with
                    | some o => if o.method ≠ "none" then some o.method else s.encryptionMetadata
                    | none => s.encryptionMetadata),
                 downloadBtnVisible := true,
                 progressBar := some 100 }
    | none => { s with errors := "Received binary data but no metadata found" :: s.errors }
  | .fileMetadata name size encryptionOptions =>
    { s with pending := some { name := name, size := size,
                               encryptionOptions := encryptionOptions,
                               chunkedTransfer := true, chunks := [],
                               totalChunks := none, nextChunkIndex := none },
             progressBar := some 5 }
  | .fileChunk chunk_index total_chunks =>
    match s.pending with
    | some meta =>
      if meta.chunkedTransfer then
        if chunk_index = 0 then
          { s with pending := some { meta with totalChunks := some total_chunks,
                                               nextChunkIndex := some chunk_index } }
        else
          { s with pending := some { meta with nextChunkIndex := some chunk_index } }
      else
        { s with errors := "Received chunk metadata but no file transfer is in progress" :: s.errors }
    | none =>
      { s with errors := "Received chunk metadata but no file transfer is in progress" :: s.errors }

/-! ## websocket.js — the P2P branch of sendFile -/

/-- The `sendNextChunk` loop of the P2P branch of `sendFile` on its success
path: while `currentChunk < totalChunks`, send the `file_chunk` metadata then
the binary chunk and advance. The fuel argument counts the remaining
iterations, `totalChunks - currentChunk` at every call. -/
def p2pPairs (file : Bytes) (total : Nat) : Nat → Nat → List P2PMsg
  | _, 0 => []
  | k, fuel + 1 =>
    P2PMsg.fileChunk k total :: P2PMsg.binary (fileSlice file p2pChunkSize k) ::
      p2pPairs file total (k + 1) fuel

/-- The P2P branch of `sendFile()`: one `file_metadata` message carrying
name, size and encryption options, then `totalChunks = ceil(size / 16384)`
metadata/binary chunk pairs. -/
def p2pSendFileMsgs (name : String) (file : Bytes) (encryptionOptions : Option EncryptionOptions) :
    List P2PMsg :=
  P2PMsg.fileMetadata name file.length encryptionOptions ::
    p2pPairs file ((file.length + p2pChunkSize - 1) / p2pChunkSize) 0
      ((file.length + p2pChunkSize - 1) / p2pChunkSize)

/-! ## p2p.js — sendP2PData and the chunk-sending step -/

/-- A payload handed to `sendP2PData`: the JSON `file_chunk` metadata text, the
JSON `file_metadata` text, or a binary `ArrayBuffer`. -/
inductive P2PPayload where
  | metadataText (name : String) (size : Nat)
  | chunkText (chunk_index : Nat) (total_chunks : Nat)
  | bin (data : Bytes)
deriving Repr, DecidableEq

/-- The observable behaviour of the RTC data channel as `sendP2PData` reads it:
its `readyState === 'open'` test, its `bufferedAmount`, and an abstract
predicate saying on which payloads `dataChannel.send` would throw. -/
structure DataChannel where
  readyStateOpen : Bool
  bufferedAmount : Nat
  sendThrows : P2PPayload → Bool

/-- Model of `sendP2PData(data)` from p2p.js: refuse when the channel is not open; for a
binary payload larger than 16384 bytes refuse while `bufferedAmount` exceeds
the 16 MiB (16777216) limit; otherwise send, returning `false` (with nothing
enqueued) when `send` throws. Returns the success flag and the sent-payload
list, extended only on success. -/
def sendP2PData (ch : DataChannel) (sent : List P2PPayload) (data : P2PPayload) :
    Bool × List P2PPayload :=
  if ch.readyStateOpen = false then (false, sent)
  else
    match data with
    | .bin d =>
      if d.length > 16384 ∧ ch.bufferedAmount > 16777216 then (false, sent)
      else if ch.sendThrows data then (false, sent)
      else (true, sent ++ [data])
    | _ => if ch.sendThrows data then (false, sent) else (true, sent ++ [data])

/-- Outcome of one invocation of `sendNextChunk`: all chunks already sent;
a retry of the same chunk scheduled after a delay (`setTimeout(sendNextChunk, 500)`
without advancing `currentChunk`); or the next chunk scheduled. -/
inductive SendStep where
  | finished
  | retryAfterDelay (chunk : Nat)
  | continueNext (chunk : Nat)
deriving Repr, DecidableEq

/-- One invocation of `sendNextChunk` from the P2P branch of `sendFile`: when
`currentChunk >= totalChunks` the transfer is finished; otherwise send the
chunk metadata and then the binary chunk through `sendP2PData`; if either send
returns `false`, schedule a retry of the same chunk after a delay; otherwise
advance. Also returns the payloads actually put on the channel this step. -/
def sendNextChunkStep (ch : DataChannel) (file : Bytes) (total current : Nat) :
    SendStep × List P2PPayload :=
  if current ≥ total then (SendStep.finished, [])
  else
    match sendP2PData ch [] (P2PPayload.chunkText current total) with
    | (false, sent) => (SendStep.retryAfterDelay current, sent)
    | (true, sent) =>
      match sendP2PData ch sent (P2PPayload.bin (fileSlice file p2pChunkSize current)) with
      | (false, sent2) => (SendStep.retryAfterDelay current, sent2)
      | (true, sent2) => (SendStep.continueNext (current + 1), sent2)

/-- Display state of the P2P sender inside `sendNextChunk`: the
`currentChunk` counter and the percentage shown on the progress bar. -/
structure P2PSendState where
  current : Nat
  progressBar : Nat
deriving Repr, DecidableEq

/-- Model of one invocation of `sendNextChunk` as it affects the sender's
display: when `currentChunk >= totalChunks` the bar is set to 100; when both
sends of the current chunk succeed the bar is set to
`min(round((currentChunk + 1) / totalChunks * 95) + 5, 100)` and the counter
advances; a failed send changes neither (the same invocation is retried after
a delay). -/
def sendLoopStep (ch : DataChannel) (file : Bytes) (total : Nat)
    (s : P2PSendState) : P2PSendState :=
  if s.current ≥ total then { s with progressBar := 100 }
  else
    match (sendNextChunkStep ch file total s.current).1 with
    | SendStep.continueNext c =>
      { current := c, progressBar := min (jsRoundPct 95 (s.current + 1) total + 5) 100 }
    | _ => s

/-- The sender's display after `n` invocations of `sendNextChunk`, starting
from the 0-percent bar shown when the P2P transfer begins. -/
def sendLoopIter (ch : DataChannel) (file : Bytes) (total : Nat) : Nat → P2PSendState
  | 0 => { current := 0, progressBar := 0 }
  | n + 1 => sendLoopStep ch file total (sendLoopIter ch file total n)

/-! ## p2p.js — signal polling (startSignalPolling and its timers) -/

/-- Timer state of the signal-polling machinery: whether
`window.signalPollingInterval` currently holds a live interval, when that
interval was started, the fire times of all still-pending 60 s timeouts, and
the log of polls performed — each recorded with the start time of the interval
that performed it. -/
structure PollState where
  active : Bool
  startedAt : Nat
  timeouts : List Nat
  polls : List (Nat × Nat)
deriving Repr, DecidableEq

/-- No polling scheduled yet. -/
def pollInit : PollState := { active := false, startedAt := 0, timeouts := [], polls := [] }

/-- Model of `startSignalPolling(code)` at time `now`: clear any existing interval,
start a fresh 500 ms interval and schedule a timeout that fires 60000 ms later
to clear the interval (earlier pending timeouts stay scheduled). -/
def startSignalPolling (now : Nat) (s : PollState) : PollState :=
  { active := true, startedAt := now, timeouts := (now + 60000) :: s.timeouts,
    polls := s.polls }

/-- The `connectionState === 'connected'` branch of `onconnectionstatechange`
(and `closeP2PConnection`): clear the polling interval. -/
def stopOnConnected (s : PollState) : PollState := { s with active := false }

/-- Stage 1 of a timer instant: timeouts scheduled strictly before `now` have
already fired and cleared the interval. -/
def timeoutFirePast (now : Nat) (s : PollState) : PollState :=
  if s.timeouts.any (fun ft => ft < now) then { s with active := false } else s

/-- Stage 2: the interval callback polls when it is live and `now` is a
positive multiple of 500 ms past its start. -/
def intervalFire (now : Nat) (s : PollState) : PollState :=
  if s.active ∧ 500 ∣ (now - s.startedAt) ∧ s.startedAt < now then
    { s with polls := (now, s.startedAt) :: s.polls }
  else s

/-- Stage 3: a timeout due exactly at `now` fires after the interval callback
(timers at the same instant run in creation order; the interval was created
first by `startSignalPolling`). -/
def timeoutFireNow (now : Nat) (s : PollState) : PollState :=
  if s.timeouts.any (fun ft => ft ≤ now) then { s with active := false } else s

/-- Stage 4: fired timeouts are discarded. -/
def dropFiredTimeouts (now : Nat) (s : PollState) : PollState :=
  { s with timeouts := s.timeouts.filter (fun ft => now < ft) }

/-- The timer event loop observed at time `now`: the four stages in order. -/
def timerTick (now : Nat) (s : PollState) : PollState :=
  dropFiredTimeouts now (timeoutFireNow now (intervalFire now (timeoutFirePast now s)))

/-- Events driving the polling state. -/
inductive PollEv where
  | start (t : Nat)
  | tick (t : Nat)
  | connected
deriving Repr, DecidableEq

/-- Process one polling event. -/
def pollStep (s : PollState) (e : PollEv) : PollState :=
  match e with
  | .start t => startSignalPolling t s
  | .tick t => timerTick t s
  | .connected => stopOnConnected s

/-- Run the polling machinery over an event history. -/
def runPolling (evs : List PollEv) : PollState := evs.foldl pollStep pollInit

/-! ## Shared concrete states for witnesses and counterexamples -/

/-- A connected receiver-side client before any transfer. -/
def receiverClient : ClientState :=
  { wsOpen := true, currentRole := "receiver", transferInProgress := false,
    receivedFileBlob := none, encryptionMetadata := none, receivedFileName := none,
    downloadBtnVisible := false, progressPercent := 0, integrityResultShown := none,
    senderCount := 1, receiverCount := 1, redirectedToJoin := false,
    errorDisplayed := none, notifications := [], log := [] }

/-- A connected sender-side client with a transfer already in flight. -/
def busyClient : ClientState :=
  { wsOpen := true, currentRole := "sender", transferInProgress := true,
    receivedFileBlob := none, encryptionMetadata := none, receivedFileName := none,
    downloadBtnVisible := false, progressPercent := 0, integrityResultShown := none,
    senderCount := 1, receiverCount := 1, redirectedToJoin := false,
    errorDisplayed := none, notifications := [], log := [] }

/-- A connected sender-side client with no transfer in flight. -/
def readyClient : ClientState := { busyClient with transferInProgress := false }

/-- A receiver that has already received a (1-byte) file blob. -/
def recvWithBlob : ClientState := { receiverClient with receivedFileBlob := some [9] }

/-! ## Helper lemmas about the handlers -/

theorem processEncryptedFile_transferInProgress (g : GcmDecrypt) (c : ChachaApi)
    (s : ClientState) : (processEncryptedFile g c s).transferInProgress = s.transferInProgress := by
  unfold processEncryptedFile
  repeat' split
  all_goals rfl

theorem processEncryptedFile_spec (g : GcmDecrypt) (c : ChachaApi) (s : ClientState)
    (hb : s.receivedFileBlob.isSome = true) (hm : s.encryptionMetadata.isSome = true) :
    (processEncryptedFile g c s).downloadBtnVisible = true ∧
    (processEncryptedFile g c s).receivedFileBlob.isSome = true ∧
    (processEncryptedFile g c s).integrityResultShown = s.integrityResultShown := by
  obtain ⟨b, hb'⟩ := Option.isSome_iff_exists.mp hb
  obtain ⟨m, hm'⟩ := Option.isSome_iff_exists.mp hm
  simp only [processEncryptedFile, hb', hm']
  repeat' split
  all_goals simp [hb']

theorem decryptStage_spec (g : GcmDecrypt) (c : ChachaApi) (s : ClientState)
    (hb : s.receivedFileBlob.isSome = true) :
    (decryptStage g c s).downloadBtnVisible = true ∧
    (decryptStage g c s).receivedFileBlob.isSome = true ∧
    (decryptStage g c s).integrityResultShown = s.integrityResultShown := by
  unfold decryptStage
  rcases hm : s.encryptionMetadata with _ | meta
  · simp [hb]
  · have hms : s.encryptionMetadata.isSome = true := by simp [hm]
    repeat' split
    all_goals simp [hb, processEncryptedFile_spec g c s hb hms]

theorem decryptStage_flag (g : GcmDecrypt) (c : ChachaApi) (s : ClientState) :
    (decryptStage g c s).transferInProgress = s.transferInProgress := by
  unfold decryptStage
  repeat' split
  all_goals simp [processEncryptedFile_transferInProgress]

theorem applyIntegrity_spec (v : Option Bool) (s : ClientState) :
    (applyIntegrity v s).downloadBtnVisible = s.downloadBtnVisible ∧
    (applyIntegrity v s).receivedFileBlob = s.receivedFileBlob ∧
    (applyIntegrity v s).transferInProgress = s.transferInProgress ∧
    (v = some false → (applyIntegrity v s).integrityResultShown = some false) := by
  unfold applyIntegrity
  rcases v with _ | b
  · simp
  · cases b <;> simp

theorem handleTransferComplete_flag (g : GcmDecrypt) (c : ChachaApi) (s : ClientState)
    (fn : String) (v : Option Bool) :
    (handleTransferComplete g c s fn v).transferInProgress = false := by
  unfold handleTransferComplete
  split
  · rw [(applyIntegrity_spec v _).2.2.1, decryptStage_flag]
  · rfl

theorem handleErrorMessage_flag (s : ClientState) (msg : String) :
    (handleErrorMessage s msg).transferInProgress = false := by
  unfold handleErrorMessage
  repeat' split
  all_goals rfl

theorem handleTransferStart_flag (s : ClientState) (fn : String) (fs : Nat)
    (o : Option EncryptionOptions) :
    (handleTransferStart s fn fs o).transferInProgress = s.transferInProgress := by
  unfold handleTransferStart
  repeat' split
  all_goals rfl

theorem updateTransferProgress_flag (s : ClientState) (p : Nat) (m : Option EncMeta) :
    (updateTransferProgress s p m).transferInProgress = s.transferInProgress := by
  unfold updateTransferProgress
  repeat' split
  all_goals rfl

/-! ## C1 — one transfer in flight per room (sender side) -/

/-- C1: while `transferInProgress` is set, the WebSocket branch of `sendFile`
sends nothing — no `start_transfer`, no chunk — and changes nothing but the
notification list; the flag is set when a relay transfer starts (socket open,
no transfer in flight); and across all incoming WebSocket messages the flag is
cleared exactly by `transfer_complete` and `error` messages. -/
theorem transfer_in_progress_guard :
    (∀ (s : ClientState) (name : String) (data : Bytes) (o : EncryptionOptions),
        s.transferInProgress = true →
        (sendFileRelay s (some (name, data)) o).2 = [] ∧
        (sendFileRelay s (some (name, data)) o).1 =
          { s with notifications := (sendFileRelay s (some (name, data)) o).1.notifications }) ∧
    (∀ (s : ClientState) (name : String) (data : Bytes) (o : EncryptionOptions),
        s.wsOpen = true → s.transferInProgress = false →
        (sendFileRelay s (some (name, data)) o).1.transferInProgress = true) ∧
    (∀ (gcm : GcmDecrypt) (chacha : ChachaApi) (s : ClientState) (m : WSIncoming),
        (handleWebSocketMessage gcm chacha s m).transferInProgress = false ↔
          ((∃ fn v, m = WSIncoming.text (ServerMsg.transferComplete fn v)) ∨
           (∃ msg, m = WSIncoming.text (ServerMsg.errorMsg msg)) ∨
           s.transferInProgress = false)) := by
  refine ⟨?_, ?_, ?_⟩
  · intro s name data o h
    unfold sendFileRelay
    split_ifs with h1 <;> simp [h] at h1 ⊢
  · intro s name data o hw ht
    unfold sendFileRelay
    split_ifs with h1 h2
    · simp [hw] at h1
    · simp [ht] at h2
    · rfl
  · intro gcm chacha s m
    cases m with
    | text t =>
      cases t <;>
        simp [handleWebSocketMessage, updateRoomStatus, handleTransferStart_flag,
          updateTransferProgress_flag, handleTransferComplete_flag, handleErrorMessage_flag]
    | binary data =>
      by_cases h : s.currentRole = "receiver" <;> simp [handleWebSocketMessage, h]

/-- Witness for C1 at concrete inputs. -/
theorem transfer_in_progress_guard_witness :
    (sendFileRelay busyClient (some ("a.bin", [1])) ⟨"none", false⟩).2 = [] ∧
    (handleWebSocketMessage (fun _ _ _ => none) (fun _ _ _ => none) busyClient
        (WSIncoming.text (ServerMsg.transferComplete "a.bin" none))).transferInProgress = false :=
  ⟨(transfer_in_progress_guard.1 busyClient "a.bin" [1] ⟨"none", false⟩ rfl).1,
   (transfer_in_progress_guard.2.2 (fun _ _ _ => none) (fun _ _ _ => none) busyClient
      (WSIncoming.text (ServerMsg.transferComplete "a.bin" none))).mpr
     (Or.inl ⟨"a.bin", none, rfl⟩)⟩

/-! ## C4 — dual tag-layout AES-GCM decryption -/

/-- C4: `decryptFileWithAES` returns the plaintext whenever either tag layout
is consistent with the given key, IV and tag: it tries the concatenated layout
(`ciphertext ++ tag`) first and uses its result when it succeeds, and falls
back to decrypting the ciphertext without the appended tag only when the first
attempt fails. -/
theorem decrypt_dual_layout (gcm : GcmDecrypt) (data key iv tag plaintext : Bytes)
    (h : gcm key iv (data ++ tag) = some plaintext ∨
      (gcm key iv (data ++ tag) = none ∧ gcm key iv data = some plaintext)) :
    decryptFileWithAES gcm data key iv tag = some plaintext := by
  rcases h with h | ⟨h1, h2⟩ <;> simp [decryptFileWithAES, *]

/-- Witness for C4: a primitive that accepts exactly the concatenated layout. -/
theorem decrypt_dual_layout_witness :
    decryptFileWithAES (fun _ _ input => if input = [7, 7] then some [1] else none)
      [7] [0] [0] [7] = some [1] :=
  decrypt_dual_layout _ [7] [0] [0] [7] [1] (Or.inl (by decide))

/-! ## C5 — integrity failure is non-fatal -/

/-- C5: when `transfer_complete` reaches a receiver that holds received bytes,
the download button is always shown — whatever the encryption metadata says and
whatever the decryption primitives do (including failure and missing keys) —
the received bytes are never discarded, and an `integrity_verified == false`
verdict surfaces the warning banner while leaving the file downloadable. -/
theorem integrity_failure_nonfatal (g : GcmDecrypt) (c : ChachaApi) (s : ClientState)
    (filename : String) (verdict : Option Bool)
    (hrole : s.currentRole = "receiver") (hblob : s.receivedFileBlob.isSome = true) :
    (handleTransferComplete g c s filename verdict).downloadBtnVisible = true ∧
    (handleTransferComplete g c s filename verdict).receivedFileBlob.isSome = true ∧
    (verdict = some false →
      (handleTransferComplete g c s filename verdict).integrityResultShown = some false) := by
  unfold handleTransferComplete
  rw [if_pos hrole]
  have hb' : ({ s with transferInProgress := false,
                       receivedFileName := some filename } : ClientState).receivedFileBlob.isSome
      = true := hblob
  have hd := decryptStage_spec g c
    { s with transferInProgress := false, receivedFileName := some filename } hb'
  have ha := applyIntegrity_spec verdict
    (decryptStage g c { s with transferInProgress := false, receivedFileName := some filename })
  refine ⟨?_, ?_, ?_⟩
  · rw [ha.1, hd.1]
  · rw [ha.2.1]
    exact hd.2.1
  · exact ha.2.2.2

/-- Witness for C5: decryption primitives that always fail, metadata absent,
a received byte present, and a failed integrity verdict. -/
theorem integrity_failure_nonfatal_witness :
    (handleTransferComplete (fun _ _ _ => none) (fun _ _ _ => none) recvWithBlob
        "f.bin" (some false)).downloadBtnVisible = true ∧
    (handleTransferComplete (fun _ _ _ => none) (fun _ _ _ => none) recvWithBlob
        "f.bin" (some false)).receivedFileBlob.isSome = true ∧
    (handleTransferComplete (fun _ _ _ => none) (fun _ _ _ => none) recvWithBlob
        "f.bin" (some false)).integrityResultShown = some false :=
  let h := integrity_failure_nonfatal (fun _ _ _ => none) (fun _ _ _ => none) recvWithBlob
    "f.bin" (some false) rfl rfl
  ⟨h.1, h.2.1, h.2.2 rfl⟩

/-! ## C6 — capacity-rejection routing -/

/-- C6 counterexample: an abnormal close (code 1006) whose reason contains the
substring "maximum capacity" does not redirect the receiver back to the join
screen — the `onclose` handler never touches the redirect (it only matches the
different substring "Maximum number of receivers", and then only shows a
notification). -/
theorem close_capacity_no_redirect :
    (⟨1006, "Room has reached maximum capacity"⟩ : CloseEvent).code ≠ 1000 ∧
    strIncludes (⟨1006, "Room has reached maximum capacity"⟩ : CloseEvent).reason
      "maximum capacity" = true ∧
    (handleClose receiverClient ⟨1006, "Room has reached maximum capacity"⟩).redirectedToJoin
      = false := by
  refine ⟨by decide, by decide, ?_⟩
  decide

/-- C6 as amended: only `error` messages containing "maximum capacity" redirect
the receiver to the join screen; the close handler never redirects — an
abnormal close whose reason contains "Maximum number of receivers" merely shows
the capacity notification. -/
theorem capacity_routing_amended :
    (∀ (s : ClientState) (message : String),
        strIncludes message "maximum capacity" = true → s.currentRole = "receiver" →
        (handleErrorMessage s message).redirectedToJoin = true) ∧
    (∀ (s : ClientState) (e : CloseEvent),
        (handleClose s e).redirectedToJoin = s.redirectedToJoin) ∧
    (∀ (s : ClientState) (e : CloseEvent), e.code ≠ 1000 →
        strIncludes e.reason "Maximum number of receivers" = true →
        ("Room has reached maximum capacity", "danger") ∈ (handleClose s e).notifications) := by
  refine ⟨?_, ?_, ?_⟩
  · intro s message hmsg hrole
    unfold handleErrorMessage
    rw [if_pos hmsg, if_pos hrole]
  · intro s e
    unfold handleClose
    repeat' split
    all_goals rfl
  · intro s e hc hr
    unfold handleClose
    rw [if_neg hc, if_pos hr]
    exact List.mem_cons_self _ _

/-- Witness for C6 as amended, at concrete states and messages. -/
theorem capacity_routing_amended_witness :
    (handleErrorMessage receiverClient "Room has reached maximum capacity").redirectedToJoin
      = true ∧
    ("Room has reached maximum capacity", "danger") ∈
      (handleClose receiverClient ⟨1006, "Maximum number of receivers reached"⟩).notifications :=
  ⟨capacity_routing_amended.1 receiverClient "Room has reached maximum capacity"
      (by decide) rfl,
   capacity_routing_amended.2.2 receiverClient ⟨1006, "Maximum number of receivers reached"⟩
      (by decide) (by decide)⟩

/-! ## C9 — P2P back-pressure -/

/-- C9: `sendP2PData` refuses a binary payload larger than 16384 bytes while
the channel's `bufferedAmount` exceeds 16 MiB; it returns `false` whenever the
channel is not open; every `false` return leaves the sent list untouched (no
half-done send); and `sendNextChunk` never skips — each step either retries the
same chunk after a delay or advances to the next, and when the channel refuses
(for example it is not open) it retries the same chunk. -/
theorem p2p_backpressure :
    (∀ (ch : DataChannel) (sent : List P2PPayload) (d : Bytes),
        ch.readyStateOpen = true → d.length > 16384 → ch.bufferedAmount > 16777216 →
        sendP2PData ch sent (P2PPayload.bin d) = (false, sent)) ∧
    (∀ (ch : DataChannel) (sent : List P2PPayload) (p : P2PPayload),
        ch.readyStateOpen = false → sendP2PData ch sent p = (false, sent)) ∧
    (∀ (ch : DataChannel) (sent : List P2PPayload) (p : P2PPayload),
        (sendP2PData ch sent p).1 = false → (sendP2PData ch sent p).2 = sent) ∧
    (∀ (ch : DataChannel) (file : Bytes) (total current : Nat), current < total →
        (sendNextChunkStep ch file total current).1 = SendStep.retryAfterDelay current ∨
        (sendNextChunkStep ch file total current).1 = SendStep.continueNext (current + 1)) ∧
    (∀ (ch : DataChannel) (file : Bytes) (total current : Nat), current < total →
        ch.readyStateOpen = false →
        (sendNextChunkStep ch file total current).1 = SendStep.retryAfterDelay current) := by
  have hstep : ∀ (ch : DataChannel) (file : Bytes) (total current : Nat), current < total →
      (sendNextChunkStep ch file total current).1 = SendStep.retryAfterDelay current ∨
      (sendNextChunkStep ch file total current).1 = SendStep.continueNext (current + 1) := by
    intro ch file total current h
    unfold sendNextChunkStep
    rw [if_neg (by omega)]
    rcases h1 : sendP2PData ch [] (P2PPayload.chunkText current total) with ⟨b1, sent1⟩
    cases b1
    · simp [h1]
    · rcases h2 : sendP2PData ch sent1 (P2PPayload.bin (fileSlice file p2pChunkSize current))
        with ⟨b2, sent2⟩
      cases b2 <;> simp [h1, h2]
  refine ⟨?_, ?_, ?_, hstep, ?_⟩
  · intro ch sent d h1 h2 h3
    simp [sendP2PData, h1, h2, h3]
  · intro ch sent p h
    unfold sendP2PData
    rw [if_pos h]
  · intro ch sent p
    unfold sendP2PData
    repeat' split
    all_goals simp
  · intro ch file total current h hopen
    unfold sendNextChunkStep
    rw [if_neg (by omega)]
    simp [sendP2PData, hopen]

/-- Witness for C9: a full channel refuses a 16385-byte payload, and a closed
channel makes the chunk loop retry chunk 0. -/
theorem p2p_backpressure_witness :
    sendP2PData ⟨true, 16777217, fun _ => false⟩ []
      (P2PPayload.bin (List.replicate 16385 0)) = (false, []) ∧
    (sendNextChunkStep ⟨false, 0, fun _ => false⟩ [1] 1 0).1 = SendStep.retryAfterDelay 0 :=
  ⟨p2p_backpressure.1 ⟨true, 16777217, fun _ => false⟩ [] (List.replicate 16385 0)
      rfl (by rw [List.length_replicate]; norm_num) (by norm_num),
   p2p_backpressure.2.2.2.2 ⟨false, 0, fun _ => false⟩ [1] 1 0 (by norm_num) rfl⟩

/-! ## C10 — hexToUint8Array -/

theorem hexPairBytes_length (l : List Char) :
    (hexPairBytes l).length = (l.length + 1) / 2 := by
  match l with
  | [] => simp [hexPairBytes]
  | [c] => simp [hexPairBytes]
  | c1 :: c2 :: rest =>
    have ih := hexPairBytes_length rest
    simp [hexPairBytes, ih]
    omega
termination_by l.length

theorem hexPairBytes_get (l : List Char) (hhex : ∀ c ∈ l, isHexDigit c = true)
    (i : Nat) (hlt : 2 * i + 1 < l.length) :
    (hexPairBytes l)[i]? =
      some (16 * ((l[2 * i]?.bind hexDigitVal).getD 0) +
        ((l[2 * i + 1]?.bind hexDigitVal).getD 0)) := by
  match l with
  | [] => simp at hlt
  | [c] => simp at hlt
  | c1 :: c2 :: rest =>
    cases i with
    | zero =>
      have hc1 : isHexDigit c1 = true := hhex c1 (by simp)
      have hc2 : isHexDigit c2 = true := hhex c2 (by simp)
      rcases h1 : hexDigitVal c1 with _ | d1
      · simp [isHexDigit, h1] at hc1
      rcases h2 : hexDigitVal c2 with _ | d2
      · simp [isHexDigit, h2] at hc2
      simp [hexPairBytes, parseHexPair, h1, h2]
    | succ j =>
      have hrest : ∀ c ∈ rest, isHexDigit c = true := by
        intro c hc; exact hhex c (by simp [hc])
      have hlt' : 2 * j + 1 < rest.length := by
        simp at hlt; omega
      have ih := hexPairBytes_get rest hrest j hlt'
      have e1 : 2 * (j + 1) = (2 * j + 1) + 1 := by omega
      have e2 : 2 * (j + 1) + 1 = (2 * j + 1 + 1) + 1 := by omega
      simp only [hexPairBytes, e1, e2, List.getElem?_cons_succ]
      exact ih
termination_by l.length

/-- C10: on a hexadecimal string of even length `2n`, `hexToUint8Array` returns
(without throwing) a byte array of length `n` whose `i`-th entry is the value
of the `i`-th two-character hex pair; a `null`/`undefined` or empty input
yields the empty array. -/
theorem hexToUint8Array_correct (s : String)
    (hlen : s.length % 2 = 0)
    (hhex : ∀ c ∈ s.toList, isHexDigit c = true) :
    hexToUint8Array none = some [] ∧
    hexToUint8Array (some "") = some [] ∧
    ∃ bytes, hexToUint8Array (some s) = some bytes ∧
      bytes.length = s.length / 2 ∧
      ∀ i < s.length / 2,
        bytes[i]? = some (16 * hexValAt s (2 * i) + hexValAt s (2 * i + 1)) := by
  refine ⟨rfl, rfl, ?_⟩
  by_cases h0 : s.length = 0
  · refine ⟨[], ?_, ?_, ?_⟩
    · simp [hexToUint8Array, h0]
    · simp [h0]
    · intro i hi
      omega
  · refine ⟨hexPairBytes s.toList, ?_, ?_, ?_⟩
    · simp only [hexToUint8Array]
      rw [if_neg h0, if_neg (by omega)]
    · have := hexPairBytes_length s.toList
      have hL : s.toList.length = s.length := rfl
      omega
    · intro i hi
      have hL : s.toList.length = s.length := rfl
      have hlt : 2 * i + 1 < s.toList.length := by omega
      rw [hexPairBytes_get s.toList hhex i hlt]
      rfl

/-- Witness for C10 on the concrete even-length hex string "0aF3". -/
theorem hexToUint8Array_correct_witness :
    hexToUint8Array none = some [] ∧
    hexToUint8Array (some "") = some [] ∧
    ∃ bytes, hexToUint8Array (some "0aF3") = some bytes ∧
      bytes.length = "0aF3".length / 2 ∧
      ∀ i < "0aF3".length / 2,
        bytes[i]? = some (16 * hexValAt "0aF3" (2 * i) + hexValAt "0aF3" (2 * i + 1)) :=
  hexToUint8Array_correct "0aF3" (by decide) (by decide)

/-! ## C3 — sender chunking -/

/-- Modelled from the claim's words: the sender trace as the spec describes it —
`total_chunks = ceil(S / chunk_size)`, one `start_transfer` control message
carrying filename, filesize and encryption options, then for each `chunk_id`
from `0` to `total_chunks - 1` the binary chunk adjacent to a
`chunk_id`/`total_chunks` control message. -/
def relaySpecTrace (name : String) (o : EncryptionOptions) (file : Bytes) : List RelayMsg :=
  RelayMsg.startTransfer name file.length o ::
    ((List.range ((file.length + relayChunkSize - 1) / relayChunkSize)).map (fun chunk_id =>
      [RelayMsg.binaryChunk (fileSlice file relayChunkSize chunk_id),
       RelayMsg.chunkMeta chunk_id ((file.length + relayChunkSize - 1) / relayChunkSize)])).flatten

/-- Modelled from the claim's words: the P2P sender trace as the spec describes
it, with the 16 KiB chunk size and the `file_metadata` / `file_chunk` framing. -/
def p2pSpecTrace (name : String) (file : Bytes) (o : Option EncryptionOptions) : List P2PMsg :=
  P2PMsg.fileMetadata name file.length o ::
    ((List.range ((file.length + p2pChunkSize - 1) / p2pChunkSize)).map (fun chunk_id =>
      [P2PMsg.fileChunk chunk_id ((file.length + p2pChunkSize - 1) / p2pChunkSize),
       P2PMsg.binary (fileSlice file p2pChunkSize chunk_id)])).flatten

theorem relayPairs_eq (file : Bytes) (total : Nat) :
    ∀ (r k : Nat), relayPairs file total k r =
      ((List.range' k (r + 1)).map (fun i =>
        [RelayMsg.binaryChunk (fileSlice file relayChunkSize i),
         RelayMsg.chunkMeta i total])).flatten := by
  intro r
  induction r with
  | zero => intro k; simp [relayPairs, List.range']
  | succ n ih => intro k; simp [relayPairs, List.range', ih (k + 1)]

theorem p2pPairs_eq (file : Bytes) (total : Nat) :
    ∀ (r k : Nat), p2pPairs file total k r =
      ((List.range' k r).map (fun i =>
        [P2PMsg.fileChunk i total,
         P2PMsg.binary (fileSlice file p2pChunkSize i)])).flatten := by
  intro r
  induction r with
  | zero => intro k; simp [p2pPairs, List.range']
  | succ n ih => intro k; simp [p2pPairs, List.range', ih (k + 1)]

/-- C3 counterexample: for the empty file the relay sender does not emit the
claimed trace. `total_chunks = ceil(0 / 64 KiB) = 0`, so the claim's trace is
the lone `start_transfer` message — but the unconditional first
`readNextChunk(0, chunkSize)` makes the sender emit one empty binary chunk
paired with `{chunk_id: 0, total_chunks: 0}`. -/
theorem relay_sender_empty_file_extra_chunk :
    (sendFileRelay readyClient (some ("empty.bin", [])) ⟨"none", false⟩).2
        = [RelayMsg.startTransfer "empty.bin" 0 ⟨"none", false⟩,
           RelayMsg.binaryChunk [], RelayMsg.chunkMeta 0 0] ∧
    relaySpecTrace "empty.bin" ⟨"none", false⟩ []
        = [RelayMsg.startTransfer "empty.bin" 0 ⟨"none", false⟩] ∧
    (sendFileRelay readyClient (some ("empty.bin", [])) ⟨"none", false⟩).2
        ≠ relaySpecTrace "empty.bin" ⟨"none", false⟩ [] := by
  refine ⟨?_, ?_, ?_⟩ <;> decide

/-- C3 as amended: for every non-empty file the relay sender emits exactly the
claimed trace (one `start_transfer`, then per `chunk_id` the binary chunk
followed by its `chunk_id`/`total_chunks` frame, `total_chunks = ceil(S/64KiB)`),
and the P2P sender emits exactly the claimed trace for every file (the
`file_chunk` control message preceding each binary chunk,
`total_chunks = ceil(S/16KiB)`); for the empty file the relay sender
additionally emits one spurious empty-chunk pair with `total_chunks = 0`. -/
theorem sender_chunking_amended :
    (∀ (s : ClientState) (name : String) (o : EncryptionOptions) (file : Bytes),
        s.wsOpen = true → s.transferInProgress = false → file ≠ [] →
        (sendFileRelay s (some (name, file)) o).2 = relaySpecTrace name o file) ∧
    (∀ (name : String) (file : Bytes) (o : Option EncryptionOptions),
        p2pSendFileMsgs name file o = p2pSpecTrace name file o) := by
  constructor
  · intro s name o file hw ht hne
    have hT : 0 < (file.length + relayChunkSize - 1) / relayChunkSize := by
      have hpos : 0 < file.length := List.length_pos.mpr hne
      simp only [relayChunkSize]
      omega
    simp only [sendFileRelay]
    rw [if_neg (by simp [hw]), if_neg (by simp [ht])]
    unfold relaySpecTrace
    simp only [List.cons.injEq, true_and]
    rw [relayPairs_eq, List.range_eq_range']
    have e : (file.length + relayChunkSize - 1) / relayChunkSize - 1 + 1
        = (file.length + relayChunkSize - 1) / relayChunkSize := by omega
    rw [e]
  · intro name file o
    unfold p2pSendFileMsgs p2pSpecTrace
    rw [p2pPairs_eq, List.range_eq_range']

/-- Witness for C3 as amended: a one-byte file over both transports. -/
theorem sender_chunking_amended_witness :
    (sendFileRelay readyClient (some ("a.bin", [7])) ⟨"none", false⟩).2
        = relaySpecTrace "a.bin" ⟨"none", false⟩ [7] ∧
    p2pSendFileMsgs "a.bin" [7] none = p2pSpecTrace "a.bin" [7] none :=
  ⟨sender_chunking_amended.1 readyClient "a.bin" ⟨"none", false⟩ [7] rfl rfl (by decide),
   sender_chunking_amended.2 "a.bin" [7] none⟩

/-! ## C2 — chunk reassembly -/

theorem handleP2P_fileChunk (s : P2PRecvState) (meta : P2PFileMeta)
    (hp : s.pending = some meta) (hct : meta.chunkedTransfer = true)
    (idx tc : Nat) (htc : meta.totalChunks = some tc ∨ idx = 0) :
    handleP2PMessage s (P2PMsg.fileChunk idx tc) =
      { s with pending := some { meta with totalChunks := some tc,
                                           nextChunkIndex := some idx } } := by
  simp only [handleP2PMessage, hp, hct, if_true]
  rcases htc with h | h
  · split_ifs with h0
    · rfl
    · rcases meta with ⟨n, sz, o, ct, cs, t, ni⟩
      simp only [P2PFileMeta.mk.injEq] at h ⊢
      simp_all
  · rw [if_pos h]

theorem handleP2P_binary (s : P2PRecvState) (meta : P2PFileMeta)
    (hp : s.pending = some meta) (hct : meta.chunkedTransfer = true) (data : Bytes) :
    handleP2PMessage s (P2PMsg.binary data) =
      (if some (meta.chunks ++ [data]).length = meta.totalChunks then
        { s with pending := none,
                 receivedFileBlob := some (meta.chunks ++ [data]).flatten,
                 receivedFileName := some meta.name,
                 encryptionMetadata :=
                   (match meta.encryptionOptions with
                    | some o => if o.method ≠ "none" then some o.method else s.encryptionMetadata
                    | none => s.encryptionMetadata),
                 downloadBtnVisible := true,
                 progressBar := some 100 }
      else
        { s with pending := some { meta with chunks := meta.chunks ++ [data] },
                 progressBar := p2pProgressDisplay (meta.chunks.length + 1) meta.totalChunks }) := by
  simp only [handleP2PMessage, hp, hct, if_true]

/-- Invariant of the P2P receive loop: if the pending record holds the first
`k` chunks of `file` and `r + 1` sender pairs remain, the fold ends with the
reassembled file. -/
theorem p2p_recv_loop (file : Bytes) (total : Nat)
    (htot : total = (file.length + p2pChunkSize - 1) / p2pChunkSize) :
    ∀ (r k : Nat), k + (r + 1) = total →
    ∀ (s : P2PRecvState) (meta : P2PFileMeta),
      s.pending = some meta →
      meta.chunkedTransfer = true →
      (meta.totalChunks = some total ∨ k = 0) →
      meta.chunks.length = k →
      meta.chunks.flatten = file.take (k * p2pChunkSize) →
      ((p2pPairs file total k (r + 1)).foldl handleP2PMessage s).receivedFileBlob
        = some file := by
  intro r
  induction r with
  | zero =>
    intro k hk s meta hp hct htc hlen hflat
    have hstep1 := handleP2P_fileChunk s meta hp hct k total htc
    rw [show p2pPairs file total k (0 + 1) = [P2PMsg.fileChunk k total,
      P2PMsg.binary (fileSlice file p2pChunkSize k)] from rfl]
    simp only [List.foldl_cons, List.foldl_nil]
    rw [hstep1]
    rw [handleP2P_binary _ { meta with totalChunks := some total, nextChunkIndex := some k }
      rfl hct]
    rw [if_pos (by simp [hlen]; omega)]
    simp only [List.flatten_append]
    have hchunk : (([fileSlice file p2pChunkSize k] : List Bytes)).flatten
        = fileSlice file p2pChunkSize k := by simp
    rw [hchunk, hflat]
    unfold fileSlice
    rw [← List.take_add]
    have hle : file.length ≤ k * p2pChunkSize + p2pChunkSize := by
      simp only [p2pChunkSize] at htot ⊢
      omega
    rw [List.take_of_length_le hle]
  | succ n ih =>
    intro k hk s meta hp hct htc hlen hflat
    have hstep1 := handleP2P_fileChunk s meta hp hct k total htc
    rw [show p2pPairs file total k (n + 1 + 1) = P2PMsg.fileChunk k total ::
      P2PMsg.binary (fileSlice file p2pChunkSize k) :: p2pPairs file total (k + 1) (n + 1)
      from rfl]
    simp only [List.foldl_cons]
    rw [hstep1]
    rw [handleP2P_binary _ { meta with totalChunks := some total, nextChunkIndex := some k }
      rfl hct]
    rw [if_neg (by simp [hlen]; omega)]
    exact ih (k + 1) (by omega) _ _ rfl hct (Or.inl rfl) (by simp [hlen])
      (by
        simp only [List.flatten_append]
        have hchunk : (([fileSlice file p2pChunkSize k] : List Bytes)).flatten
            = fileSlice file p2pChunkSize k := by simp
        rw [hchunk, hflat]
        unfold fileSlice
        rw [← List.take_add, show k * p2pChunkSize + p2pChunkSize = (k + 1) * p2pChunkSize
          from by ring])

theorem relayClientBinaryStep (g : GcmDecrypt) (c : ChachaApi) (s : ClientState)
    (d : Bytes) (hrole : s.currentRole = "receiver") :
    handleWebSocketMessage g c s (WSIncoming.binary d) =
      { s with receivedFileBlob := some d,
               log := ("File received, processing...", "info") :: s.log } := by
  simp only [handleWebSocketMessage]
  rw [if_pos hrole]

/-- C2 counterexample: a payload of size `chunk_size*3 + 17 = 196625` split
into four 64 KiB relay chunks and delivered in order (each binary chunk
adjacent to its metadata frame, which the client dispatch leaves in the
`default` branch) does NOT reassemble at the relay WebSocket receiver: the
binary handler keeps no buffer and overwrites `receivedFileBlob` with every
frame, so only the 17-byte final chunk remains. -/
theorem relay_receiver_overwrites_chunks :
    (([WSIncoming.binary (fileSlice (List.replicate 196625 0) 65536 0),
       WSIncoming.text ServerMsg.unknown,
       WSIncoming.binary (fileSlice (List.replicate 196625 0) 65536 1),
       WSIncoming.text ServerMsg.unknown,
       WSIncoming.binary (fileSlice (List.replicate 196625 0) 65536 2),
       WSIncoming.text ServerMsg.unknown,
       WSIncoming.binary (fileSlice (List.replicate 196625 0) 65536 3),
       WSIncoming.text ServerMsg.unknown]).foldl
        (handleWebSocketMessage (fun _ _ _ => none) (fun _ _ _ => none))
        receiverClient).receivedFileBlob
      ≠ some (List.replicate 196625 0) := by
  have hu : ∀ s : ClientState,
      handleWebSocketMessage (fun _ _ _ => none) (fun _ _ _ => none) s
        (WSIncoming.text ServerMsg.unknown) = s := fun _ => rfl
  simp only [List.foldl_cons, List.foldl_nil]
  rw [hu, hu, hu, hu]
  rw [relayClientBinaryStep _ _ _ _ rfl]
  rw [relayClientBinaryStep _ _ _ _ rfl]
  rw [relayClientBinaryStep _ _ _ _ rfl]
  rw [relayClientBinaryStep _ _ _ _ rfl]
  have hs : fileSlice (List.replicate (196625 : Nat) (0 : Nat)) 65536 3
      = List.replicate 17 0 := by
    unfold fileSlice
    rw [List.drop_replicate, List.take_replicate]
    norm_num
  dsimp only
  rw [hs]
  intro h
  injection h with h'
  have hl := congrArg List.length h'
  simp only [List.length_replicate] at hl
  omega

/-- C2 as amended: the P2P receiver buffers each binary chunk and, on the last
one, concatenates them in order into a byte-identical copy of the source, for
every payload with at least one chunk (`S ≥ 1`; for `S = 0` no chunk message is
ever sent, so no file is produced). The relay WebSocket receiver keeps no chunk
buffer: each binary frame replaces `receivedFileBlob` wholesale, so it
reproduces the payload exactly when the payload arrives as one complete binary
message (the relay delivers complete files, per the handler's comment); chunked
delivery leaves only the final chunk (see the counterexample). -/
theorem chunk_reassembly_amended :
    (∀ (name : String) (file : Bytes) (o : Option EncryptionOptions), 1 ≤ file.length →
        ((p2pSendFileMsgs name file o).foldl handleP2PMessage p2pInit).receivedFileBlob
          = some file) ∧
    (∀ (g : GcmDecrypt) (c : ChachaApi) (s : ClientState) (payload : Bytes),
        s.currentRole = "receiver" →
        (handleWebSocketMessage g c s (WSIncoming.binary payload)).receivedFileBlob
          = some payload) := by
  constructor
  · intro name file o hlen1
    have hT : 0 < (file.length + p2pChunkSize - 1) / p2pChunkSize := by
      simp only [p2pChunkSize]
      omega
    unfold p2pSendFileMsgs
    simp only [List.foldl_cons]
    have h1 : handleP2PMessage p2pInit (P2PMsg.fileMetadata name file.length o)
        = { p2pInit with
            pending := some ⟨name, file.length, o, true, [], none, none⟩,
            progressBar := some 5 } := rfl
    rw [h1]
    obtain ⟨r, hr⟩ : ∃ r, r + 1 = (file.length + p2pChunkSize - 1) / p2pChunkSize :=
      ⟨(file.length + p2pChunkSize - 1) / p2pChunkSize - 1, by omega⟩
    rw [← hr]
    exact p2p_recv_loop file _ (by rw [hr]) r 0 (by omega) _ _ rfl rfl (Or.inr rfl) rfl
      (by simp)
  · intro g c s payload hrole
    rw [relayClientBinaryStep g c s payload hrole]

/-- Witness for C2 as amended: a one-byte payload over both receivers. -/
theorem chunk_reassembly_amended_witness :
    ((p2pSendFileMsgs "b.bin" [42] none).foldl handleP2PMessage p2pInit).receivedFileBlob
      = some [42] ∧
    (handleWebSocketMessage (fun _ _ _ => none) (fun _ _ _ => none) receiverClient
      (WSIncoming.binary [42])).receivedFileBlob = some [42] :=
  ⟨chunk_reassembly_amended.1 "b.bin" [42] none (by simp),
   chunk_reassembly_amended.2 (fun _ _ _ => none) (fun _ _ _ => none) receiverClient [42] rfl⟩

/-! ## C7 — progress reporting -/

theorem jsRoundPct95_self (t : Nat) (ht : 1 ≤ t) : jsRoundPct 95 t t = 95 := by
  unfold jsRoundPct
  rw [show 2 * (95 * t) + t = t + 2 * t * 95 from by ring]
  rw [Nat.add_mul_div_left _ _ (by omega : 0 < 2 * t)]
  rw [Nat.div_eq_of_lt (by omega)]

/-- Progress shown after each received P2P chunk: processing the `m + 1`-st
remaining pair leaves the bar at `min(round((k+m+1)/total * 95) + 5, 100)`. -/
theorem p2p_progress_loop (file : Bytes) (total : Nat) :
    ∀ (m k : Nat), k + (m + 1) ≤ total →
    ∀ (s : P2PRecvState) (meta : P2PFileMeta),
      s.pending = some meta →
      meta.chunkedTransfer = true →
      (meta.totalChunks = some total ∨ k = 0) →
      meta.chunks.length = k →
      (((p2pPairs file total k (total - k)).take (2 * (m + 1))).foldl
          handleP2PMessage s).progressBar
        = some (min (jsRoundPct 95 (k + m + 1) total + 5) 100) := by
  intro m
  induction m with
  | zero =>
    intro k hk s meta hp hct htc hlen
    obtain ⟨f, hf⟩ : ∃ f, total - k = f + 1 := ⟨total - k - 1, by omega⟩
    rw [hf]
    rw [show p2pPairs file total k (f + 1) = P2PMsg.fileChunk k total ::
      P2PMsg.binary (fileSlice file p2pChunkSize k) :: p2pPairs file total (k + 1) f
      from rfl]
    rw [show (2 * (0 + 1)) = 2 from rfl]
    rw [List.take_succ_cons, List.take_succ_cons, List.take_zero]
    simp only [List.foldl_cons, List.foldl_nil]
    rw [handleP2P_fileChunk s meta hp hct k total htc]
    rw [handleP2P_binary _ { meta with totalChunks := some total, nextChunkIndex := some k }
      rfl hct]
    by_cases hlast : k + 1 = total
    · rw [if_pos (by simp [hlen]; omega)]
      have h95 : jsRoundPct 95 (k + 0 + 1) total = 95 := by
        rw [show k + 0 + 1 = total from by omega]
        exact jsRoundPct95_self total (by omega)
      rw [h95]
      dsimp only
      norm_num
    · rw [if_neg (by simp [hlen]; omega)]
      dsimp only
      simp [p2pProgressDisplay, hlen]
  | succ n ih =>
    intro k hk s meta hp hct htc hlen
    obtain ⟨f, hf⟩ : ∃ f, total - k = f + 1 := ⟨total - k - 1, by omega⟩
    rw [hf]
    rw [show p2pPairs file total k (f + 1) = P2PMsg.fileChunk k total ::
      P2PMsg.binary (fileSlice file p2pChunkSize k) :: p2pPairs file total (k + 1) f
      from rfl]
    rw [show 2 * (n + 1 + 1) = (2 * (n + 1)) + 1 + 1 from by ring]
    rw [List.take_succ_cons, List.take_succ_cons]
    simp only [List.foldl_cons]
    rw [handleP2P_fileChunk s meta hp hct k total htc]
    rw [handleP2P_binary _ { meta with totalChunks := some total, nextChunkIndex := some k }
      rfl hct]
    rw [if_neg (by simp [hlen]; omega)]
    rw [show f = total - (k + 1) from by omega]
    rw [show k + (n + 1) + 1 = (k + 1) + n + 1 from by ring]
    exact ih (k + 1) (by omega) _ _ rfl hct (Or.inl rfl) (by simp [hlen])

/-- The P2P progress formula over the sender trace: after the receiver has
processed the metadata message and the first `n` chunk pairs, the progress bar
shows `min(round(n / total_chunks * 95) + 5, 100)`. -/
theorem p2pProgressFold (name : String) (file : Bytes) (o : Option EncryptionOptions)
    (n : Nat) (h1 : 1 ≤ n) (h2 : n ≤ (file.length + p2pChunkSize - 1) / p2pChunkSize) :
    (((p2pSendFileMsgs name file o).take (1 + 2 * n)).foldl
        handleP2PMessage p2pInit).progressBar
      = some (min (jsRoundPct 95 n ((file.length + p2pChunkSize - 1) / p2pChunkSize) + 5)
          100) := by
  unfold p2pSendFileMsgs
  rw [show (1 + 2 * n) = (2 * n) + 1 from by ring, List.take_succ_cons]
  simp only [List.foldl_cons]
  have hmeta0 : handleP2PMessage p2pInit (P2PMsg.fileMetadata name file.length o)
      = { p2pInit with
          pending := some ⟨name, file.length, o, true, [], none, none⟩,
          progressBar := some 5 } := rfl
  rw [hmeta0]
  obtain ⟨m, hm⟩ : ∃ m, n = m + 1 := ⟨n - 1, by omega⟩
  subst hm
  have hloop := p2p_progress_loop file ((file.length + p2pChunkSize - 1) / p2pChunkSize)
    m 0 (by omega)
    { p2pInit with
      pending := some ⟨name, file.length, o, true, [], none, none⟩,
      progressBar := some 5 }
    ⟨name, file.length, o, true, [], none, none⟩
    rfl rfl (Or.inr rfl) rfl
  simpa using hloop

/-- C7 counterexample: at the second of the two chunks of a 16385-byte P2P
payload the code displays `min(round(1/2 * 95) + 5, 100) = 53`, not the
claimed `round(1/2 * 100) = 50`. -/
theorem p2p_progress_not_claimed_formula :
    (((p2pSendFileMsgs "f.bin" (List.replicate 16385 0) none).take 3).foldl
        handleP2PMessage p2pInit).progressBar = some 53 ∧
    jsRoundPct 100 1 2 = 50 ∧ (53 : Nat) ≠ 50 := by
  have hT : ((List.replicate (16385 : Nat) (0 : Nat)).length + p2pChunkSize - 1) / p2pChunkSize
      = 2 := by
    rw [List.length_replicate]
    norm_num [p2pChunkSize]
  refine ⟨?_, by norm_num [jsRoundPct], by norm_num⟩
  have h := p2pProgressFold "f.bin" (List.replicate 16385 0) none 1 (by norm_num)
    (by rw [hT]; norm_num)
  rw [hT] at h
  rw [show ((1 : Nat) + 2 * 1) = 3 from by norm_num] at h
  rw [h]
  norm_num [jsRoundPct]

theorem sendP2PData_success_chunkText (ch : DataChannel) (sent : List P2PPayload)
    (i t : Nat) (hopen : ch.readyStateOpen = true)
    (hth : ch.sendThrows (P2PPayload.chunkText i t) = false) :
    sendP2PData ch sent (P2PPayload.chunkText i t)
      = (true, sent ++ [P2PPayload.chunkText i t]) := by
  simp only [sendP2PData]
  rw [if_neg (by simp [hopen]), if_neg (by simp [hth])]

theorem sendP2PData_success_smallBin (ch : DataChannel) (sent : List P2PPayload)
    (d : Bytes) (hopen : ch.readyStateOpen = true) (hsmall : d.length ≤ 16384)
    (hth : ch.sendThrows (P2PPayload.bin d) = false) :
    sendP2PData ch sent (P2PPayload.bin d) = (true, sent ++ [P2PPayload.bin d]) := by
  simp only [sendP2PData]
  rw [if_neg (by simp [hopen])]
  rw [if_neg (fun hc => absurd hc.1 (by omega))]
  rw [if_neg (by simp [hth])]

/-- On a channel that is open and whose `send` does not throw, one invocation
of `sendNextChunk` for a pending chunk sends its metadata and binary and
advances (every P2P chunk is at most `p2pChunkSize = 16384` bytes, so the
back-pressure refusal cannot trigger). -/
theorem sendNextChunkStep_success (ch : DataChannel) (file : Bytes) (total current : Nat)
    (hcur : current < total) (hopen : ch.readyStateOpen = true)
    (hth : ∀ p, ch.sendThrows p = false) :
    sendNextChunkStep ch file total current
      = (SendStep.continueNext (current + 1),
         [P2PPayload.chunkText current total,
          P2PPayload.bin (fileSlice file p2pChunkSize current)]) := by
  have hsmall : (fileSlice file p2pChunkSize current).length ≤ 16384 := by
    unfold fileSlice
    rw [List.length_take]
    exact le_trans (min_le_left _ _) (by norm_num [p2pChunkSize])
  unfold sendNextChunkStep
  rw [if_neg (by omega)]
  rw [sendP2PData_success_chunkText ch [] current total hopen (hth _)]
  simp only [List.nil_append]
  rw [sendP2PData_success_smallBin ch [P2PPayload.chunkText current total] _ hopen hsmall
    (hth _)]
  rfl

/-- The sender-side display formula over the whole chunk loop: on a channel
that is open and never throws, `n` invocations of `sendNextChunk` have sent the
first `n` chunks and left the bar showing
`min(round(n / totalChunks * 95) + 5, 100)`. -/
theorem p2pSenderProgressFold (ch : DataChannel) (file : Bytes) (total : Nat)
    (hopen : ch.readyStateOpen = true) (hth : ∀ p, ch.sendThrows p = false) :
    ∀ n, n ≤ total →
      (sendLoopIter ch file total n).current = n ∧
      (1 ≤ n → (sendLoopIter ch file total n).progressBar
        = min (jsRoundPct 95 n total + 5) 100) := by
  intro n
  induction n with
  | zero =>
    intro _
    exact ⟨rfl, by omega⟩
  | succ m ih =>
    intro hle
    obtain ⟨hcur, _⟩ := ih (by omega)
    have hm : m < total := by omega
    have hstep := sendNextChunkStep_success ch file total m hm hopen hth
    constructor
    · show (sendLoopStep ch file total (sendLoopIter ch file total m)).current = m + 1
      unfold sendLoopStep
      rw [hcur, if_neg (by omega), hstep]
    · intro _
      show (sendLoopStep ch file total (sendLoopIter ch file total m)).progressBar
        = min (jsRoundPct 95 (m + 1) total + 5) 100
      unfold sendLoopStep
      rw [hcur, if_neg (by omega), hstep]

/-- C7 as amended: after each P2P chunk is sent or received the displayed
percentage is `min(round(n / total_chunks * 95) + 5, 100)` — five percent
reserved for the metadata step and ninety-five distributed over the chunks —
not `round(n / total_chunks * 100)`: the receiver's bar after processing `n`
chunk pairs of the sender trace, and the sender's bar after `n` successful
`sendNextChunk` invocations, both show that value; the relay client, for its
part, displays the server-sent percentage verbatim
(`updateTransferProgress`). -/
theorem p2p_progress_amended :
    (∀ (name : String) (file : Bytes) (o : Option EncryptionOptions) (n : Nat),
        1 ≤ n → n ≤ (file.length + p2pChunkSize - 1) / p2pChunkSize →
        (((p2pSendFileMsgs name file o).take (1 + 2 * n)).foldl
            handleP2PMessage p2pInit).progressBar
          = some (min (jsRoundPct 95 n ((file.length + p2pChunkSize - 1) / p2pChunkSize)
              + 5) 100)) ∧
    (∀ (ch : DataChannel) (file : Bytes) (total n : Nat),
        ch.readyStateOpen = true → (∀ p, ch.sendThrows p = false) →
        1 ≤ n → n ≤ total →
        (sendLoopIter ch file total n).progressBar
          = min (jsRoundPct 95 n total + 5) 100) ∧
    (∀ (s : ClientState) (pct : Nat) (meta : Option EncMeta),
        (updateTransferProgress s pct meta).progressPercent = pct) := by
  refine ⟨?_, ?_, ?_⟩
  · intro name file o n h1 h2
    exact p2pProgressFold name file o n h1 h2
  · intro ch file total n hopen hth h1 h2
    exact (p2pSenderProgressFold ch file total hopen hth n h2).2 h1
  · intro s pct meta
    unfold updateTransferProgress
    repeat' split
    all_goals rfl

/-- Witness for C7 as amended: a single-chunk file reaches 100 percent on both
the receiver's and the sender's bar, and the relay client displays a server
percentage verbatim. -/
theorem p2p_progress_amended_witness :
    (((p2pSendFileMsgs "w.bin" [5] none).take (1 + 2 * 1)).foldl
        handleP2PMessage p2pInit).progressBar
      = some (min (jsRoundPct 95 1 ((([5] : Bytes).length + p2pChunkSize - 1) / p2pChunkSize)
          + 5) 100) ∧
    (sendLoopIter ⟨true, 0, fun _ => false⟩ [5] 1 1).progressBar
      = min (jsRoundPct 95 1 1 + 5) 100 ∧
    (updateTransferProgress receiverClient 53 none).progressPercent = 53 :=
  ⟨p2p_progress_amended.1 "w.bin" [5] none 1 (by norm_num) (by norm_num [p2pChunkSize]),
   p2p_progress_amended.2.1 ⟨true, 0, fun _ => false⟩ [5] 1 1 rfl (fun _ => rfl)
     (by norm_num) (by norm_num),
   p2p_progress_amended.2.2 receiverClient 53 none⟩

/-! ## C8 — bounded signal polling -/

theorem timeoutFirePast_polls (t : Nat) (s : PollState) :
    (timeoutFirePast t s).polls = s.polls := by
  unfold timeoutFirePast; split_ifs <;> rfl

theorem timeoutFirePast_startedAt (t : Nat) (s : PollState) :
    (timeoutFirePast t s).startedAt = s.startedAt := by
  unfold timeoutFirePast; split_ifs <;> rfl

theorem timeoutFirePast_timeouts (t : Nat) (s : PollState) :
    (timeoutFirePast t s).timeouts = s.timeouts := by
  unfold timeoutFirePast; split_ifs <;> rfl

theorem timeoutFirePast_active (t : Nat) (s : PollState)
    (h : (timeoutFirePast t s).active = true) :
    s.active = true ∧ s.timeouts.any (fun ft => ft < t) = false := by
  revert h
  unfold timeoutFirePast
  split_ifs with hc <;> intro h
  · cases h
  · exact ⟨h, by simpa using hc⟩

theorem intervalFire_active (t : Nat) (s : PollState) :
    (intervalFire t s).active = s.active := by
  unfold intervalFire; split_ifs <;> rfl

theorem intervalFire_startedAt (t : Nat) (s : PollState) :
    (intervalFire t s).startedAt = s.startedAt := by
  unfold intervalFire; split_ifs <;> rfl

theorem intervalFire_timeouts (t : Nat) (s : PollState) :
    (intervalFire t s).timeouts = s.timeouts := by
  unfold intervalFire; split_ifs <;> rfl

theorem intervalFire_polls (t : Nat) (s : PollState) (p : Nat × Nat)
    (hp : p ∈ (intervalFire t s).polls) :
    p = (t, s.startedAt) ∧ s.active = true ∧ 500 ∣ (t - s.startedAt) ∨ p ∈ s.polls := by
  revert hp
  unfold intervalFire
  split_ifs with hc <;> intro hp
  · rcases List.mem_cons.mp hp with h | h
    · exact Or.inl ⟨h, hc.1, hc.2.1⟩
    · exact Or.inr h
  · exact Or.inr hp

theorem timeoutFireNow_polls (t : Nat) (s : PollState) :
    (timeoutFireNow t s).polls = s.polls := by
  unfold timeoutFireNow; split_ifs <;> rfl

theorem timeoutFireNow_startedAt (t : Nat) (s : PollState) :
    (timeoutFireNow t s).startedAt = s.startedAt := by
  unfold timeoutFireNow; split_ifs <;> rfl

theorem timeoutFireNow_timeouts (t : Nat) (s : PollState) :
    (timeoutFireNow t s).timeouts = s.timeouts := by
  unfold timeoutFireNow; split_ifs <;> rfl

theorem timeoutFireNow_active (t : Nat) (s : PollState)
    (h : (timeoutFireNow t s).active = true) :
    s.active = true ∧ s.timeouts.any (fun ft => ft ≤ t) = false := by
  revert h
  unfold timeoutFireNow
  split_ifs with hc <;> intro h
  · cases h
  · exact ⟨h, by simpa using hc⟩

/-- The safety invariant of the polling machinery: a live interval always has
its clearing timeout pending, and every recorded poll happened within 60 s of
its interval's start, on the 500 ms grid. -/
def PollInvariant (s : PollState) : Prop :=
  (s.active = true → s.startedAt + 60000 ∈ s.timeouts) ∧
  ∀ p ∈ s.polls, p.1 ≤ p.2 + 60000 ∧ 500 ∣ (p.1 - p.2)

theorem pollStep_inv (s : PollState) (e : PollEv) (h : PollInvariant s) :
    PollInvariant (pollStep s e) := by
  obtain ⟨h1, h2⟩ := h
  cases e with
  | start t =>
    constructor
    · intro _
      exact List.mem_cons_self _ _
    · exact fun p hp => h2 p hp
  | connected =>
    constructor
    · intro hact
      cases hact
    · exact fun p hp => h2 p hp
  | tick t =>
    constructor
    · intro hact
      have hact3 : (timeoutFireNow t (intervalFire t (timeoutFirePast t s))).active = true :=
        hact
      obtain ⟨hact2, hnow⟩ := timeoutFireNow_active _ _ hact3
      rw [intervalFire_active] at hact2
      obtain ⟨hact1, _⟩ := timeoutFirePast_active _ _ hact2
      have hmem : s.startedAt + 60000 ∈ s.timeouts := h1 hact1
      have hstarted : (pollStep s (PollEv.tick t)).startedAt = s.startedAt := by
        show (dropFiredTimeouts t _).startedAt = s.startedAt
        unfold dropFiredTimeouts
        rw [timeoutFireNow_startedAt, intervalFire_startedAt, timeoutFirePast_startedAt]
      have htimeouts : (pollStep s (PollEv.tick t)).timeouts
          = s.timeouts.filter (fun ft => t < ft) := by
        show (dropFiredTimeouts t _).timeouts = _
        unfold dropFiredTimeouts
        rw [timeoutFireNow_timeouts, intervalFire_timeouts, timeoutFirePast_timeouts]
      rw [hstarted, htimeouts]
      refine List.mem_filter.mpr ⟨hmem, ?_⟩
      rw [intervalFire_timeouts, timeoutFirePast_timeouts] at hnow
      have hng : ¬ (s.startedAt + 60000 ≤ t) := by
        intro hle
        have hany : s.timeouts.any (fun ft => ft ≤ t) = true := by
          rw [List.any_eq_true]
          exact ⟨s.startedAt + 60000, hmem, by simpa using hle⟩
        rw [hnow] at hany
        cases hany
      simpa using hng
    · intro p hp
      have hp3 : p ∈ (dropFiredTimeouts t (timeoutFireNow t (intervalFire t
          (timeoutFirePast t s)))).polls := hp
      rw [show (dropFiredTimeouts t (timeoutFireNow t (intervalFire t
          (timeoutFirePast t s)))).polls = (timeoutFireNow t (intervalFire t
          (timeoutFirePast t s))).polls from rfl, timeoutFireNow_polls] at hp3
      rcases intervalFire_polls t (timeoutFirePast t s) p hp3 with ⟨hpe, hact1, hdvd⟩ | hold
      · obtain ⟨hact, hpast⟩ := timeoutFirePast_active _ _ hact1
        have hmem : s.startedAt + 60000 ∈ s.timeouts := h1 hact
        have hno : ¬ (s.startedAt + 60000 < t) := by
          intro hlt
          have hany : s.timeouts.any (fun ft => ft < t) = true := by
            rw [List.any_eq_true]
            exact ⟨s.startedAt + 60000, hmem, by simpa using hlt⟩
          rw [hpast] at hany
          cases hany
        rw [timeoutFirePast_startedAt] at hpe hdvd
        subst hpe
        exact ⟨by omega, hdvd⟩
      · rw [timeoutFirePast_polls] at hold
        exact h2 p hold

theorem timerTick_inactive (t : Nat) (s : PollState) (h : s.active = false) :
    (timerTick t s).polls = s.polls ∧ (timerTick t s).active = false := by
  unfold timerTick dropFiredTimeouts timeoutFireNow intervalFire timeoutFirePast
  split_ifs <;> simp_all

theorem foldl_ticks_inactive (ts : List Nat) :
    ∀ (s : PollState), s.active = false →
      ((ts.map PollEv.tick).foldl pollStep s).polls = s.polls := by
  induction ts with
  | nil => intro s _; rfl
  | cons t ts ih =>
    intro s h
    simp only [List.map_cons, List.foldl_cons]
    have h' := timerTick_inactive t s h
    rw [show pollStep s (PollEv.tick t) = timerTick t s from rfl]
    rw [ih _ h'.2, h'.1]

/-- C8: the signal-polling loop is bounded. Every poll recorded in any event
history happens at most 60000 ms after the start of the interval that performed
it and on the 500 ms grid, and once the connection-state handler reports
`connected` no further tick ever polls again (absent a new start). -/
theorem polling_bounded :
    (∀ (evs : List PollEv) (p : Nat × Nat), p ∈ (runPolling evs).polls →
        p.1 ≤ p.2 + 60000 ∧ 500 ∣ (p.1 - p.2)) ∧
    (∀ (evs : List PollEv) (ts : List Nat),
        (runPolling (evs ++ PollEv.connected :: ts.map PollEv.tick)).polls
          = (runPolling evs).polls) := by
  have key : ∀ (evs : List PollEv) (s : PollState), PollInvariant s →
      PollInvariant (evs.foldl pollStep s) := by
    intro evs
    induction evs with
    | nil => intro s h; exact h
    | cons e evs ih => intro s h; exact ih _ (pollStep_inv s e h)
  constructor
  · intro evs p hp
    have hinit : PollInvariant pollInit := by
      constructor
      · intro hact
        cases hact
      · intro q hq
        cases hq
    exact (key evs pollInit hinit).2 p hp
  · intro evs ts
    unfold runPolling
    rw [List.foldl_append, List.foldl_cons]
    rw [show pollStep (List.foldl pollStep pollInit evs) PollEv.connected
        = stopOnConnected (List.foldl pollStep pollInit evs) from rfl]
    rw [foldl_ticks_inactive ts _ rfl]
    rfl

/-- Witness for C8: a concrete history with one poll, and a connected event
silencing subsequent ticks. -/
theorem polling_bounded_witness :
    (1500, 1000) ∈ (runPolling [PollEv.start 1000, PollEv.tick 1500]).polls ∧
    1500 ≤ 1000 + 60000 ∧ 500 ∣ (1500 - 1000) ∧
    (runPolling ([PollEv.start 1000, PollEv.tick 1500] ++ PollEv.connected
        :: ([2000, 2500].map PollEv.tick))).polls
      = (runPolling [PollEv.start 1000, PollEv.tick 1500]).polls :=
  ⟨by decide,
   (polling_bounded.1 [PollEv.start 1000, PollEv.tick 1500] (1500, 1000) (by decide)).1,
   (polling_bounded.1 [PollEv.start 1000, PollEv.tick 1500] (1500, 1000) (by decide)).2,
   polling_bounded.2 [PollEv.start 1000, PollEv.tick 1500] [2000, 2500]⟩

end Transcrypt
